import Mathlib

/-!
Verification of the client-side media utilities of contentcraft-script-studio.

The development shallowly embeds the algorithmic parts of the repository:

* `audioBufferToWavBase64` (src/App.tsx): serialization of a decoded PCM
  audio buffer into a 44-byte RIFF/WAVE header followed by interleaved
  16-bit little-endian samples.  Float samples are modelled as rationals;
  the JavaScript `| 0` coercion (truncation toward zero) is `ratTrunc`.
* `extractVideoFrames` (src/App.tsx): the sequential seek/capture loop,
  modelled as a fuel-indexed recursion over the captured seek timestamps.
* `downloadAsSrt` (src/components/ComparisonTranscriptDisplay.tsx): SRT
  text rendering, including the `Date.setSeconds` behaviour of the
  ECMAScript `MakeTime` operation (fractional seconds are truncated by
  `ToIntegerOrInfinity`, so the millisecond field of the produced date is
  the one of `Date(0)`, namely `0`).
* `reviseScriptWithAI` (src/services/geminiService.ts): the response-shape
  check and the surrounding try/catch, with the nondeterministic collaborator
  response made an explicit parameter.
* the per-segment text-edit handlers of App.tsx and
  ComparisonTranscriptDisplay.tsx.
-/

namespace ContentCraft

/-! ## Truncation toward zero on ℚ (JavaScript `| 0` on an in-range value) -/

/-- Truncation of a rational toward zero, the effect of JavaScript's `| 0`
coercion on a float whose truncation fits in 32 bits, and of the
`ToIntegerOrInfinity` abstract operation. -/
def ratTrunc (q : ℚ) : Int := if q < 0 then -Rat.floor (-q) else Rat.floor q

lemma rat_floor_eq (q : ℚ) : Rat.floor q = ⌊q⌋ :=
  (Rat.floor_def' q).trans Rat.floor_def.symm

lemma ratTrunc_eq (q : ℚ) : ratTrunc q = if q < 0 then ⌈q⌉ else ⌊q⌋ := by
  unfold ratTrunc
  rw [rat_floor_eq, rat_floor_eq, Int.floor_neg, neg_neg]

/-- Truncation toward zero lies between the floor and the ceiling. -/
lemma ratTrunc_mem (q : ℚ) : ⌊q⌋ ≤ ratTrunc q ∧ ratTrunc q ≤ ⌈q⌉ := by
  rw [ratTrunc_eq]
  split
  · exact ⟨Int.floor_le_ceil q, le_refl _⟩
  · exact ⟨le_refl _, Int.floor_le_ceil q⟩

lemma ratTrunc_bounds (q : ℚ) (lo hi : Int) (hlo : (lo : ℚ) ≤ q) (hhi : q ≤ (hi : ℚ)) :
    lo ≤ ratTrunc q ∧ ratTrunc q ≤ hi := by
  obtain ⟨h1, h2⟩ := ratTrunc_mem q
  exact ⟨le_trans (Int.le_floor.mpr hlo) h1, le_trans h2 (Int.ceil_le.mpr hhi)⟩

/-! ## The WAV serializer `audioBufferToWavBase64` (src/App.tsx, lines 92-159)

The byte production into the `DataView` is modelled as a list of byte
values (naturals below 256).  The base64/Blob step at the end of the
function transports these bytes unchanged and is not modelled. -/

/-- Decoded PCM audio, the Web Audio `AudioBuffer` as consumed by the
serializer: `channelData c` models `getChannelData(c)`; samples are
modelled as rationals. -/
structure AudioBuffer where
  numberOfChannels : Nat
  sampleRate : Nat
  length : Nat
  channelData : Nat → List ℚ

/-- The sample read `channels[i][offset]` of the serializer loop. -/
def sampleAt (buffer : AudioBuffer) (c i : Nat) : ℚ :=
  (buffer.channelData c).getD i 0

/-- Quantization of one float sample, line 136-137 of src/App.tsx:
clamp to [-1, 1], then `(0.5 + sample < 0 ? sample * 32768 : sample * 32767) | 0`. -/
def wavQuantize (s : ℚ) : Int :=
  let sample := max (-1) (min 1 s)
  ratTrunc (if (0.5 : ℚ) + sample < 0 then sample * 32768 else sample * 32767)

/-- `DataView.setUint16 (littleEndian)`: the two bytes of `n % 2^16`. -/
def uint16LE (n : Nat) : List Nat := [n % 256, n / 256 % 256]

/-- `DataView.setUint32 (littleEndian)`: the four bytes of `n % 2^32`. -/
def uint32LE (n : Nat) : List Nat :=
  [n % 256, n / 256 % 256, n / 65536 % 256, n / 16777216 % 256]

/-- `DataView.setInt16 (littleEndian)`: two's-complement, low byte first. -/
def int16LE (v : Int) : List Nat := uint16LE (v % 65536).toNat

/-- The `writeString` helper: UTF-16 code units of an ASCII string. -/
def asciiCodes (s : String) : List Nat := s.data.map Char.toNat

/-- `length` of the serializer: `buffer.length * numOfChan * 2 + 44`. -/
def wavTotalLength (buffer : AudioBuffer) : Nat :=
  buffer.length * buffer.numberOfChannels * 2 + 44

/-- The 44 header bytes written at positions 0-43 (lines 109-127). -/
def wavHeader (buffer : AudioBuffer) : List Nat :=
  asciiCodes "RIFF"
    ++ uint32LE (wavTotalLength buffer - 8)
    ++ asciiCodes "WAVE"
    ++ asciiCodes "fmt "
    ++ uint32LE 16
    ++ uint16LE 1
    ++ uint16LE buffer.numberOfChannels
    ++ uint32LE buffer.sampleRate
    ++ uint32LE (buffer.sampleRate * 2 * buffer.numberOfChannels)
    ++ uint16LE (buffer.numberOfChannels * 2)
    ++ uint16LE 16
    ++ asciiCodes "data"
    ++ uint32LE (wavTotalLength buffer - 44)

/-- The bytes of one interleaved frame: the inner `for` loop over channels. -/
def frameBytes (buffer : AudioBuffer) (i : Nat) : List Nat :=
  (List.range buffer.numberOfChannels).flatMap
    (fun c => int16LE (wavQuantize (sampleAt buffer c i)))

/-- The data section written by the `while (pos < length)` loop: one frame
per sample offset, frames in increasing time order. -/
def wavData (buffer : AudioBuffer) : List Nat :=
  (List.range buffer.length).flatMap (frameBytes buffer)

/-- The full byte sequence placed in the `ArrayBuffer` by
`audioBufferToWavBase64` before the base64 bridge. -/
def audioBufferToWavBytes (buffer : AudioBuffer) : List Nat :=
  wavHeader buffer ++ wavData buffer

/-! ## Little-endian readers (the decoding direction of the round-trip) -/

/-- Read a little-endian 16-bit unsigned value at a byte offset. -/
def readUint16LE (bytes : List Nat) (off : Nat) : Nat :=
  bytes.getD off 0 + 256 * bytes.getD (off + 1) 0

/-- Read a little-endian 32-bit unsigned value at a byte offset. -/
def readUint32LE (bytes : List Nat) (off : Nat) : Nat :=
  bytes.getD off 0 + 256 * bytes.getD (off + 1) 0
    + 65536 * bytes.getD (off + 2) 0 + 16777216 * bytes.getD (off + 3) 0

/-- Read a little-endian 16-bit signed (two's-complement) value. -/
def readInt16LE (bytes : List Nat) (off : Nat) : Int :=
  let u := readUint16LE bytes off
  if u < 32768 then (u : Int) else (u : Int) - 65536

/-- A one-channel demonstration buffer with full-scale and zero samples. -/
def demoBuffer : AudioBuffer where
  numberOfChannels := 1
  sampleRate := 8000
  length := 3
  channelData := fun _ => [1, -1, 0]

/-! ## The frame sampler `extractVideoFrames` (src/App.tsx, lines 220-264)

The seek/capture loop is event-driven: after `loadedmetadata`, the code
seeks to 0 and the `onseeked` handler `captureFrame` records one capture
per completed seek, advancing `currentTime` by `interval` and clamping the
seek target to the duration, until `numberOfFrames` captures exist.  The
embedding records the seek timestamps (the content of each JPEG capture is
the visual frame at that timestamp) and uses the remaining number of
captures as structural fuel; the fuel is never exhausted when
`numberOfFrames ≥ 1`. -/

/-- The `captureFrame` seek-completion handler.  Arguments: remaining fuel,
the unclamped `currentTime` accumulator, the position of the seek that just
completed, and the captures so far (`frames.length` equals the source's
`framesExtracted` counter). -/
def captureFrame (duration interval : ℚ) (numberOfFrames : Nat) :
    Nat → ℚ → ℚ → List ℚ → List ℚ
  | 0, _, _, frames => frames
  | fuel + 1, currentTime, pos, frames =>
    let frames2 := frames ++ [pos]
    if numberOfFrames ≤ frames2.length then frames2
    else
      captureFrame duration interval numberOfFrames fuel (currentTime + interval)
        (min (currentTime + interval) duration) frames2

/-- The timestamps captured by `extractVideoFrames` on a video of the given
duration: `interval = duration / numberOfFrames`, first seek at time 0. -/
def extractFrameTimes (duration : ℚ) (numberOfFrames : Nat) : List ℚ :=
  captureFrame duration (duration / numberOfFrames) numberOfFrames numberOfFrames 0 0 []

/-- Closed form of the tail of the capture sequence: `k` further captures
starting from accumulator `ct`, each advanced by `iv` and clamped to `d`. -/
def frameTimesFrom (d iv : ℚ) : ℚ → Nat → List ℚ
  | _, 0 => []
  | ct, k + 1 => min (ct + iv) d :: frameTimesFrom d iv (ct + iv) k

/-- Outcome of attempting to open the source as playable video: either the
error event fires, or the metadata (in particular the duration) becomes
available and the capture loop runs. -/
inductive VideoLoadResult where
  | failure : VideoLoadResult
  | metadata : ℚ → VideoLoadResult

/-- One settled run of `extractVideoFrames`: the settled promise together
with whether the temporary object URL was revoked. -/
structure FrameRun where
  result : Except String (List ℚ)
  urlRevoked : Bool

/-- `extractVideoFrames` as a function of the load outcome.  The error path
(src/App.tsx, lines 259-263) revokes the object URL and rejects with the
load error; the local `frames` array is discarded, never resolved.  The
success path resolves with the captures and also revokes the URL. -/
def extractVideoFramesRun (load : VideoLoadResult) (numberOfFrames : Nat) : FrameRun :=
  match load with
  | .failure => ⟨.error "Failed to load video file for frame extraction.", true⟩
  | .metadata duration => ⟨.ok (extractFrameTimes duration numberOfFrames), true⟩

/-! ## Transcript segments and the SRT export
(src/components/ComparisonTranscriptDisplay.tsx, lines 23-49) -/

/-- A transcript segment: start/end in seconds and the spoken text. -/
structure TranscriptSegment where
  start : ℚ
  «end» : ℚ
  text : String
deriving DecidableEq, Inhabited

/-- Two-digit zero padding, as produced by `toISOString` fields. -/
def pad2 (n : Nat) : String :=
  if n < 10 then "0" ++ toString n else toString n

/-- Three-digit zero padding for the millisecond field. -/
def pad3 (n : Nat) : String :=
  if n < 10 then "00" ++ toString n
  else if n < 100 then "0" ++ toString n
  else toString n

/-- The `formatSrtTime` helper.  `new Date(0)` followed by
`date.setSeconds(seconds)` stores `ToIntegerOrInfinity(seconds) * 1000`
milliseconds: the ECMAScript `MakeTime` operation truncates a fractional
seconds argument toward zero, and the millisecond component of `Date(0)`
is 0.  `toISOString().substring(11, 23)` then renders the hour (mod 24),
minute, second and millisecond fields of that date value, and the dot is
replaced by a comma.  Negative (the JavaScript code also catches NaN)
inputs short-circuit to "00:00:00,000".  Faithful whenever the date value
stays below year 10000, which covers every transcript timestamp. -/
def formatSrtTime (seconds : ℚ) : String :=
  if seconds < 0 then "00:00:00,000"
  else
    let dateMs : Nat := (ratTrunc seconds).toNat * 1000
    pad2 (dateMs / 3600000 % 24) ++ ":" ++ pad2 (dateMs / 60000 % 60) ++ ":"
      ++ pad2 (dateMs / 1000 % 60) ++ "," ++ pad3 (dateMs % 1000)

/-- The SRT text built by `downloadAsSrt`: one block
`index+1 newline start --> end newline text newline` per segment, blocks
joined with a newline. -/
def srtContent (transcript : List TranscriptSegment) : String :=
  String.intercalate "\n" (transcript.mapIdx (fun index segment =>
    toString (index + 1) ++ "\n" ++ formatSrtTime segment.start ++ " --> "
      ++ formatSrtTime segment.«end» ++ "\n" ++ segment.text ++ "\n"))

/-- `downloadAsSrt` downloads nothing for an empty transcript; otherwise
the downloaded file holds `srtContent`. -/
def downloadAsSrt (transcript : List TranscriptSegment) : Option String :=
  if transcript.length = 0 then none else some (srtContent transcript)

/-! ## The revision collaborator boundary `reviseScriptWithAI`
(src/services/geminiService.ts, lines 48-75) -/

/-- Shape of the parsed collaborator response as seen by the check on line
64: either not an array at all, or an array of segments.  The
nondeterministic external response is an explicit parameter. -/
inductive RevisionResponse where
  | notArray : RevisionResponse
  | array : List TranscriptSegment → RevisionResponse

/-- Body of the `try` block: the `Array.isArray` / length check of lines
61-67, throwing on a shape mismatch and returning the parsed array
unchanged (`return revisedData`) otherwise. -/
def reviseScriptWithAIBody (transcript : List TranscriptSegment)
    (response : RevisionResponse) : Except String (List TranscriptSegment) :=
  match response with
  | .notArray => .error "AI response did not match the expected format."
  | .array revisedData =>
    if revisedData.length ≠ transcript.length then
      .error "AI response did not match the expected format."
    else
      .ok revisedData

/-- `reviseScriptWithAI`: the surrounding `catch` (lines 71-74) rethrows
every failure as the single user-facing error message. -/
def reviseScriptWithAI (transcript : List TranscriptSegment)
    (response : RevisionResponse) : Except String (List TranscriptSegment) :=
  match reviseScriptWithAIBody transcript response with
  | .error _ => .error "Failed to get a valid revision from the AI. Please try again."
  | .ok revised => .ok revised

/-! ## Per-segment text edits -/

/-- Shared update shape of the edit handlers: copy the array, then replace
element `index` by a copy of itself with only `text` overwritten (the
`newTranscript[index] = { ...newTranscript[index], text: newText }`
pattern). -/
def setSegmentText (transcript : List TranscriptSegment) (index : Nat)
    (newText : String) : List TranscriptSegment :=
  let old := transcript.getD index default
  transcript.set index ⟨old.start, old.«end», newText⟩

/-- `handleOriginalChange` (ComparisonTranscriptDisplay.tsx, lines 91-98). -/
def handleOriginalChange (prev : List TranscriptSegment) (index : Nat)
    (newText : String) : List TranscriptSegment :=
  setSegmentText prev index newText

/-- `handleRevisedChange` (ComparisonTranscriptDisplay.tsx, lines 100-107). -/
def handleRevisedChange (prev : List TranscriptSegment) (index : Nat)
    (newText : String) : List TranscriptSegment :=
  setSegmentText prev index newText

/-- The success-path state update of `handleReReviseSegment` (src/App.tsx,
lines 371-377), applied to the revised transcript with the text returned by
`reviseSingleSegment`. -/
def handleReReviseSegmentUpdate (revisedTranscript : List TranscriptSegment)
    (index : Nat) (revisedText : String) : List TranscriptSegment :=
  setSegmentText revisedTranscript index revisedText

/-! ## Structural lemmas about the produced bytes -/

lemma asciiCodes_RIFF : asciiCodes "RIFF" = [82, 73, 70, 70] := by decide

lemma asciiCodes_WAVE : asciiCodes "WAVE" = [87, 65, 86, 69] := by decide

lemma asciiCodes_fmt : asciiCodes "fmt " = [102, 109, 116, 32] := by decide

lemma asciiCodes_data : asciiCodes "data" = [100, 97, 116, 97] := by decide

lemma wavHeader_length (buffer : AudioBuffer) : (wavHeader buffer).length = 44 := by
  simp [wavHeader, asciiCodes_RIFF, asciiCodes_WAVE, asciiCodes_fmt, asciiCodes_data,
    uint16LE, uint32LE]

lemma int16LE_length (v : Int) : (int16LE v).length = 2 := rfl

lemma sum_map_const_range (n k : Nat) : ((List.range n).map (fun _ => k)).sum = n * k := by
  induction n with
  | zero => simp
  | succ m ih => rw [List.range_succ]; simp [ih, Nat.succ_mul]

lemma frameBytes_length (buffer : AudioBuffer) (i : Nat) :
    (frameBytes buffer i).length = buffer.numberOfChannels * 2 := by
  unfold frameBytes
  rw [List.length_flatMap]
  simp only [Function.comp_def]
  have h : ((List.range buffer.numberOfChannels).map
      (fun c => (int16LE (wavQuantize (sampleAt buffer c i))).length))
      = (List.range buffer.numberOfChannels).map (fun _ => 2) := by
    simp [int16LE_length]
  rw [h, sum_map_const_range]

lemma wavData_length (buffer : AudioBuffer) :
    (wavData buffer).length = buffer.length * (buffer.numberOfChannels * 2) := by
  unfold wavData
  rw [List.length_flatMap]
  simp only [Function.comp_def]
  have h : ((List.range buffer.length).map (fun i => (frameBytes buffer i).length))
      = (List.range buffer.length).map (fun _ => buffer.numberOfChannels * 2) := by
    simp [frameBytes_length]
  rw [h, sum_map_const_range]

lemma wavQuantize_def (s : ℚ) :
    wavQuantize s = ratTrunc (if (0.5 : ℚ) + max (-1) (min 1 s) < 0
      then max (-1) (min 1 s) * 32768 else max (-1) (min 1 s) * 32767) := rfl

/-- C9: after clamping to [-1, 1], the quantized sample always lies in the
signed 16-bit range [-32768, 32767], so the `setInt16` store never wraps. -/
theorem wavQuantize_int16_range (s : ℚ) :
    -32768 ≤ wavQuantize s ∧ wavQuantize s ≤ 32767 := by
  rw [wavQuantize_def]
  have hc1 : (-1 : ℚ) ≤ max (-1) (min 1 s) := le_max_left _ _
  have hc2 : max (-1) (min 1 s) ≤ 1 := max_le (by norm_num) (min_le_left _ _)
  split
  · refine ratTrunc_bounds _ _ _ ?_ ?_ <;> push_cast <;> nlinarith
  · refine ratTrunc_bounds _ _ _ ?_ ?_ <;> push_cast <;> nlinarith

/-- C2: the produced WAV byte sequence has length `44 + frameCount *
channelCount * 2`, starts with the ASCII bytes "RIFF", and carries the
ASCII bytes "WAVE" at offsets 8-11. -/
theorem wav_length_and_magic (buffer : AudioBuffer)
    (_hch : 1 ≤ buffer.numberOfChannels) :
    (audioBufferToWavBytes buffer).length
        = 44 + buffer.length * buffer.numberOfChannels * 2
    ∧ (audioBufferToWavBytes buffer).take 4 = asciiCodes "RIFF"
    ∧ ((audioBufferToWavBytes buffer).drop 8).take 4 = asciiCodes "WAVE" := by
  refine ⟨?_, ?_, ?_⟩
  · rw [audioBufferToWavBytes, List.length_append, wavHeader_length, wavData_length]
    ring
  · rw [audioBufferToWavBytes, wavHeader, asciiCodes_RIFF, asciiCodes_WAVE,
      asciiCodes_fmt, asciiCodes_data]
    rfl
  · rw [audioBufferToWavBytes, wavHeader, asciiCodes_RIFF, asciiCodes_WAVE,
      asciiCodes_fmt, asciiCodes_data]
    rfl

/-- C2 witness at the concrete demonstration buffer. -/
theorem wav_length_and_magic_witness :
    1 ≤ demoBuffer.numberOfChannels
    ∧ ((audioBufferToWavBytes demoBuffer).length
          = 44 + demoBuffer.length * demoBuffer.numberOfChannels * 2
        ∧ (audioBufferToWavBytes demoBuffer).take 4 = asciiCodes "RIFF"
        ∧ ((audioBufferToWavBytes demoBuffer).drop 8).take 4 = asciiCodes "WAVE") :=
  ⟨by decide, wav_length_and_magic demoBuffer (by decide)⟩

/-! ## Positional description of the interleaved data section -/

lemma drop_flatMap_uniform {α : Type} (f : α → List Nat) (k : Nat) :
    ∀ (i : Nat) (l : List α), (∀ x ∈ l, (f x).length = k) →
      (l.flatMap f).drop (k * i) = (l.drop i).flatMap f := by
  intro i
  induction i with
  | zero => intro l _; simp
  | succ n ih =>
    intro l h
    cases l with
    | nil => simp
    | cons a t =>
      have ha : (f a).length = k := h a (by simp)
      have ht : ∀ x ∈ t, (f x).length = k := fun x hx => h x (by simp [hx])
      have e1 : k * (n + 1) = (f a).length + k * n := by rw [ha]; ring
      rw [List.flatMap_cons, e1, List.drop_append, ih t ht]
      simp

lemma range_drop_cons (n i : Nat) (h : i < n) :
    (List.range n).drop i = i :: (List.range n).drop (i + 1) := by
  rw [List.drop_eq_getElem_cons (by simpa using h)]
  simp

/-- The two data bytes of channel `c` in frame `i` sit at byte offset
`44 + 2 * (i * channelCount + c)` of the produced WAV byte sequence. -/
lemma wav_data_bytes_at (buffer : AudioBuffer) (c i : Nat)
    (hc : c < buffer.numberOfChannels) (hi : i < buffer.length) :
    ((audioBufferToWavBytes buffer).drop
        (44 + 2 * (i * buffer.numberOfChannels + c))).take 2
      = int16LE (wavQuantize (sampleAt buffer c i)) := by
  have hhdr : (wavHeader buffer).length = 44 := wavHeader_length buffer
  have e0 : (audioBufferToWavBytes buffer).drop (44 + 2 * (i * buffer.numberOfChannels + c))
      = (wavData buffer).drop (2 * (i * buffer.numberOfChannels + c)) := by
    rw [audioBufferToWavBytes, ← hhdr, List.drop_append]
  rw [e0]
  have e1 : 2 * (i * buffer.numberOfChannels + c)
      = (2 * buffer.numberOfChannels) * i + 2 * c := by ring
  have e2 : (wavData buffer).drop ((2 * buffer.numberOfChannels) * i)
      = ((List.range buffer.length).drop i).flatMap (frameBytes buffer) := by
    rw [wavData]
    exact drop_flatMap_uniform (frameBytes buffer) (2 * buffer.numberOfChannels) i
      (List.range buffer.length)
      (fun x _ => by rw [frameBytes_length]; ring)
  have e3 : ((List.range buffer.length).drop i).flatMap (frameBytes buffer)
      = frameBytes buffer i ++ ((List.range buffer.length).drop (i + 1)).flatMap (frameBytes buffer) := by
    rw [range_drop_cons buffer.length i hi, List.flatMap_cons]
  have e4 : (frameBytes buffer i).drop (2 * c)
      = ((List.range buffer.numberOfChannels).drop c).flatMap
          (fun ch => int16LE (wavQuantize (sampleAt buffer ch i))) := by
    rw [frameBytes]
    exact drop_flatMap_uniform _ 2 c (List.range buffer.numberOfChannels)
      (fun x _ => int16LE_length _)
  have e5 : ((List.range buffer.numberOfChannels).drop c).flatMap
        (fun ch => int16LE (wavQuantize (sampleAt buffer ch i)))
      = int16LE (wavQuantize (sampleAt buffer c i))
        ++ ((List.range buffer.numberOfChannels).drop (c + 1)).flatMap
            (fun ch => int16LE (wavQuantize (sampleAt buffer ch i))) := by
    rw [range_drop_cons buffer.numberOfChannels c hc, List.flatMap_cons]
  have hc2 : 2 * c ≤ (frameBytes buffer i).length := by
    rw [frameBytes_length]; omega
  rw [e1, ← List.drop_drop, e2, e3, List.drop_append_of_le_length hc2, e4, e5,
    List.append_assoc]
  exact List.take_left' (int16LE_length _)

lemma getD_of_drop_take (l : List Nat) (off a b : Nat)
    (h : (l.drop off).take 2 = [a, b]) :
    l.getD off 0 = a ∧ l.getD (off + 1) 0 = b := by
  have h0 : (l.drop off)[0]? = some a := by
    have := List.getElem?_take_of_lt (l := l.drop off) (n := 2) (m := 0) (by omega)
    rw [h] at this; exact this.symm
  have h1 : (l.drop off)[1]? = some b := by
    have := List.getElem?_take_of_lt (l := l.drop off) (n := 2) (m := 1) (by omega)
    rw [h] at this; exact this.symm
  rw [List.getElem?_drop] at h0 h1
  constructor
  · rw [List.getD_eq_getElem?_getD]
    simpa using congrArg (fun o => o.getD 0) h0
  · rw [List.getD_eq_getElem?_getD]
    have : l[off + 1]? = some b := by simpa using h1
    simpa using congrArg (fun o => o.getD 0) this

/-- Decoding the stored two's-complement bytes recovers any in-range value. -/
lemma readInt16LE_of_take (l : List Nat) (off : Nat) (v : Int)
    (hlo : -32768 ≤ v) (hhi : v ≤ 32767)
    (h : (l.drop off).take 2 = int16LE v) :
    readInt16LE l off = v := by
  have hbytes : int16LE v = [(v % 65536).toNat % 256, (v % 65536).toNat / 256 % 256] := rfl
  obtain ⟨ha, hb⟩ := getD_of_drop_take l off _ _ (h.trans hbytes)
  have hm1 : ((v % 65536).toNat : Int) = v % 65536 :=
    Int.toNat_of_nonneg (Int.emod_nonneg v (by norm_num))
  have hm2 : v % 65536 < 65536 := Int.emod_lt_of_pos v (by norm_num)
  have hu : readUint16LE l off = (v % 65536).toNat := by
    rw [readUint16LE, ha, hb]; omega
  simp only [readInt16LE, hu]
  split <;> omega

/-- C1: the data section is interleaved by channel, the 16-bit little-endian
value at byte offset `44 + 2 * (i * channelCount + c)` is the quantization
of channel `c`'s sample `i` (clamp to [-1, 1], then multiply by 32768 in the
`0.5 + s < 0` branch and by 32767 otherwise, truncating toward zero), and
the quantization maps 1 to 32767, -1 to -32768, and 0 to 0. -/
theorem wav_sample_encoding (buffer : AudioBuffer) (c i : Nat)
    (hc : c < buffer.numberOfChannels) (hi : i < buffer.length) :
    ((audioBufferToWavBytes buffer).drop
        (44 + 2 * (i * buffer.numberOfChannels + c))).take 2
      = int16LE (wavQuantize (sampleAt buffer c i))
    ∧ readInt16LE (audioBufferToWavBytes buffer)
        (44 + 2 * (i * buffer.numberOfChannels + c))
      = wavQuantize (sampleAt buffer c i)
    ∧ wavQuantize 1 = 32767
    ∧ wavQuantize (-1) = -32768
    ∧ wavQuantize 0 = 0 := by
  have h := wav_data_bytes_at buffer c i hc hi
  obtain ⟨h1, h2⟩ := wavQuantize_int16_range (sampleAt buffer c i)
  exact ⟨h, readInt16LE_of_take _ _ _ h1 h2 h,
    by with_unfolding_all decide, by with_unfolding_all decide,
    by with_unfolding_all decide⟩

/-- C1 witness: the first frame of the demonstration buffer encodes its
full-scale sample 1 as the little-endian bytes of 32767. -/
theorem wav_sample_encoding_witness :
    (0 < demoBuffer.numberOfChannels ∧ 0 < demoBuffer.length)
    ∧ (((audioBufferToWavBytes demoBuffer).drop
          (44 + 2 * (0 * demoBuffer.numberOfChannels + 0))).take 2
        = int16LE (wavQuantize (sampleAt demoBuffer 0 0))
      ∧ readInt16LE (audioBufferToWavBytes demoBuffer)
          (44 + 2 * (0 * demoBuffer.numberOfChannels + 0))
        = wavQuantize (sampleAt demoBuffer 0 0)
      ∧ wavQuantize 1 = 32767
      ∧ wavQuantize (-1) = -32768
      ∧ wavQuantize 0 = 0) :=
  ⟨⟨by decide, by decide⟩, wav_sample_encoding demoBuffer 0 0 (by decide) (by decide)⟩

/-! ## Header round-trip -/

/-- Fully flattened form of the produced byte sequence, used to read
individual header bytes off by position. -/
lemma wav_cons (buffer : AudioBuffer) :
    audioBufferToWavBytes buffer =
      82 :: 73 :: 70 :: 70
      :: ((wavTotalLength buffer - 8) % 256) :: ((wavTotalLength buffer - 8) / 256 % 256)
      :: ((wavTotalLength buffer - 8) / 65536 % 256)
      :: ((wavTotalLength buffer - 8) / 16777216 % 256)
      :: 87 :: 65 :: 86 :: 69
      :: 102 :: 109 :: 116 :: 32
      :: (16 % 256) :: (16 / 256 % 256) :: (16 / 65536 % 256) :: (16 / 16777216 % 256)
      :: (1 % 256) :: (1 / 256 % 256)
      :: (buffer.numberOfChannels % 256) :: (buffer.numberOfChannels / 256 % 256)
      :: (buffer.sampleRate % 256) :: (buffer.sampleRate / 256 % 256)
      :: (buffer.sampleRate / 65536 % 256) :: (buffer.sampleRate / 16777216 % 256)
      :: (buffer.sampleRate * 2 * buffer.numberOfChannels % 256)
      :: (buffer.sampleRate * 2 * buffer.numberOfChannels / 256 % 256)
      :: (buffer.sampleRate * 2 * buffer.numberOfChannels / 65536 % 256)
      :: (buffer.sampleRate * 2 * buffer.numberOfChannels / 16777216 % 256)
      :: (buffer.numberOfChannels * 2 % 256) :: (buffer.numberOfChannels * 2 / 256 % 256)
      :: (16 % 256) :: (16 / 256 % 256)
      :: 100 :: 97 :: 116 :: 97
      :: ((wavTotalLength buffer - 44) % 256) :: ((wavTotalLength buffer - 44) / 256 % 256)
      :: ((wavTotalLength buffer - 44) / 65536 % 256)
      :: ((wavTotalLength buffer - 44) / 16777216 % 256)
      :: wavData buffer := by
  simp only [audioBufferToWavBytes, wavHeader, asciiCodes_RIFF, asciiCodes_WAVE,
    asciiCodes_fmt, asciiCodes_data, uint32LE, uint16LE, List.cons_append, List.nil_append]

/-- C3: decoding the 44-byte header little-endian recovers the sample rate
(bytes 24-27), channel count (22-23), bits-per-sample 16 (34-35), byte rate
(28-31), block align (32-33), RIFF size (4-7) and data-chunk size (40-43),
whenever the stored quantities fit their fields. -/
theorem wav_header_roundtrip (buffer : AudioBuffer)
    (hch : 1 ≤ buffer.numberOfChannels)
    (hba : buffer.numberOfChannels * 2 < 65536)
    (hbr : buffer.sampleRate * 2 * buffer.numberOfChannels < 4294967296)
    (htot : wavTotalLength buffer < 4294967296) :
    readUint32LE (audioBufferToWavBytes buffer) 24 = buffer.sampleRate
    ∧ readUint16LE (audioBufferToWavBytes buffer) 22 = buffer.numberOfChannels
    ∧ readUint16LE (audioBufferToWavBytes buffer) 34 = 16
    ∧ readUint32LE (audioBufferToWavBytes buffer) 28
        = buffer.sampleRate * buffer.numberOfChannels * 2
    ∧ readUint16LE (audioBufferToWavBytes buffer) 32 = buffer.numberOfChannels * 2
    ∧ readUint32LE (audioBufferToWavBytes buffer) 4 = wavTotalLength buffer - 8
    ∧ readUint32LE (audioBufferToWavBytes buffer) 40 = wavTotalLength buffer - 44 := by
  have hsr : buffer.sampleRate < 4294967296 := by
    refine lt_of_le_of_lt ?_ hbr
    calc buffer.sampleRate = buffer.sampleRate * 1 := (Nat.mul_one _).symm
      _ ≤ buffer.sampleRate * (2 * buffer.numberOfChannels) :=
          Nat.mul_le_mul_left _ (by omega)
      _ = buffer.sampleRate * 2 * buffer.numberOfChannels := by ring
  refine ⟨?_, ?_, ?_, ?_, ?_, ?_, ?_⟩
  · have e : readUint32LE (audioBufferToWavBytes buffer) 24
        = buffer.sampleRate % 256 + 256 * (buffer.sampleRate / 256 % 256)
          + 65536 * (buffer.sampleRate / 65536 % 256)
          + 16777216 * (buffer.sampleRate / 16777216 % 256) := by rw [wav_cons]; rfl
    rw [e]; omega
  · have e : readUint16LE (audioBufferToWavBytes buffer) 22
        = buffer.numberOfChannels % 256 + 256 * (buffer.numberOfChannels / 256 % 256) := by
      rw [wav_cons]; rfl
    rw [e]; omega
  · rw [wav_cons]; rfl
  · have e : readUint32LE (audioBufferToWavBytes buffer) 28
        = buffer.sampleRate * 2 * buffer.numberOfChannels % 256
          + 256 * (buffer.sampleRate * 2 * buffer.numberOfChannels / 256 % 256)
          + 65536 * (buffer.sampleRate * 2 * buffer.numberOfChannels / 65536 % 256)
          + 16777216 * (buffer.sampleRate * 2 * buffer.numberOfChannels / 16777216 % 256) := by
      rw [wav_cons]; rfl
    have e2 : buffer.sampleRate * buffer.numberOfChannels * 2
        = buffer.sampleRate * 2 * buffer.numberOfChannels := by ring
    rw [e, e2]
    generalize hg : buffer.sampleRate * 2 * buffer.numberOfChannels = b at hbr ⊢
    omega
  · have e : readUint16LE (audioBufferToWavBytes buffer) 32
        = buffer.numberOfChannels * 2 % 256 + 256 * (buffer.numberOfChannels * 2 / 256 % 256) := by
      rw [wav_cons]; rfl
    rw [e]
    generalize hg : buffer.numberOfChannels * 2 = b at hba ⊢
    omega
  · have e : readUint32LE (audioBufferToWavBytes buffer) 4
        = (wavTotalLength buffer - 8) % 256 + 256 * ((wavTotalLength buffer - 8) / 256 % 256)
          + 65536 * ((wavTotalLength buffer - 8) / 65536 % 256)
          + 16777216 * ((wavTotalLength buffer - 8) / 16777216 % 256) := by
      rw [wav_cons]; rfl
    rw [e]
    generalize hg : wavTotalLength buffer = t at htot ⊢
    omega
  · have e : readUint32LE (audioBufferToWavBytes buffer) 40
        = (wavTotalLength buffer - 44) % 256 + 256 * ((wavTotalLength buffer - 44) / 256 % 256)
          + 65536 * ((wavTotalLength buffer - 44) / 65536 % 256)
          + 16777216 * ((wavTotalLength buffer - 44) / 16777216 % 256) := by
      rw [wav_cons]; rfl
    rw [e]
    generalize hg : wavTotalLength buffer = t at htot ⊢
    omega

/-- C3 witness at the concrete demonstration buffer. -/
theorem wav_header_roundtrip_witness :
    (1 ≤ demoBuffer.numberOfChannels
      ∧ demoBuffer.numberOfChannels * 2 < 65536
      ∧ demoBuffer.sampleRate * 2 * demoBuffer.numberOfChannels < 4294967296
      ∧ wavTotalLength demoBuffer < 4294967296)
    ∧ (readUint32LE (audioBufferToWavBytes demoBuffer) 24 = demoBuffer.sampleRate
      ∧ readUint16LE (audioBufferToWavBytes demoBuffer) 22 = demoBuffer.numberOfChannels
      ∧ readUint16LE (audioBufferToWavBytes demoBuffer) 34 = 16
      ∧ readUint32LE (audioBufferToWavBytes demoBuffer) 28
          = demoBuffer.sampleRate * demoBuffer.numberOfChannels * 2
      ∧ readUint16LE (audioBufferToWavBytes demoBuffer) 32 = demoBuffer.numberOfChannels * 2
      ∧ readUint32LE (audioBufferToWavBytes demoBuffer) 4 = wavTotalLength demoBuffer - 8
      ∧ readUint32LE (audioBufferToWavBytes demoBuffer) 40 = wavTotalLength demoBuffer - 44) :=
  ⟨⟨by decide, by decide, by decide, by decide⟩,
    wav_header_roundtrip demoBuffer (by decide) (by decide) (by decide) (by decide)⟩

lemma frameTimesFrom_length (d iv : ℚ) : ∀ (ct : ℚ) (k : Nat),
    (frameTimesFrom d iv ct k).length = k := by
  intro ct k
  induction k generalizing ct with
  | zero => rfl
  | succ m ih => simp [frameTimesFrom, ih]

lemma frameTimesFrom_getD (d iv : ℚ) : ∀ (k : Nat) (ct : ℚ) (j : Nat), j < k →
    (frameTimesFrom d iv ct k).getD j 0 = min (ct + ((j : ℚ) + 1) * iv) d := by
  intro k
  induction k with
  | zero => intro ct j hj; omega
  | succ m ih =>
    intro ct j hj
    cases j with
    | zero =>
      show min (ct + iv) d = min (ct + ((0 : ℚ) + 1) * iv) d
      norm_num
    | succ n =>
      show (frameTimesFrom d iv (ct + iv) m).getD n 0 = _
      rw [ih (ct + iv) n (by omega)]
      congr 1
      push_cast
      ring

lemma captureFrame_closed (d iv : ℚ) (count : Nat) : ∀ (fuel : Nat) (ct pos : ℚ)
    (acc : List ℚ), acc.length < count → count ≤ acc.length + fuel →
    captureFrame d iv count fuel ct pos acc
      = acc ++ pos :: frameTimesFrom d iv ct (count - acc.length - 1) := by
  intro fuel
  induction fuel with
  | zero => intro ct pos acc h1 h2; omega
  | succ n ih =>
    intro ct pos acc h1 h2
    simp only [captureFrame]
    have hlen : (acc ++ [pos]).length = acc.length + 1 := by simp
    by_cases hstop : count ≤ (acc ++ [pos]).length
    · rw [if_pos hstop]
      have hk : count - acc.length - 1 = 0 := by omega
      rw [hk]
      rfl
    · rw [if_neg hstop]
      have h1' : (acc ++ [pos]).length < count := by omega
      have h2' : count ≤ (acc ++ [pos]).length + n := by omega
      rw [ih (ct + iv) (min (ct + iv) d) (acc ++ [pos]) h1' h2']
      have hm : count - (acc ++ [pos]).length - 1 + 1 = count - acc.length - 1 := by omega
      rw [← hm]
      simp [frameTimesFrom]

lemma extractFrameTimes_eq (d : ℚ) (N : Nat) (hN : 1 ≤ N) :
    extractFrameTimes d N = 0 :: frameTimesFrom d (d / N) 0 (N - 1) := by
  rw [extractFrameTimes, captureFrame_closed d (d / N) N N 0 0 [] (by simpa using hN) (by simp)]
  rfl

/-- C4: with a finite positive duration `d` and `N ≥ 1` requested frames,
the sampler produces exactly `N` captures, capture `k` is taken at seek
target `min (k * (d / N)) d`, every target `k * (d / N)` for `k < N` is at
most `d` (so the clamp never truncates a target), and on a 10-second video
with `N = 5` the captured timestamps are 0, 2, 4, 6, 8 seconds. -/
theorem extractVideoFrames_spec (d : ℚ) (N : Nat) (hd : 0 < d) (hN : 1 ≤ N) :
    (extractFrameTimes d N).length = N
    ∧ (∀ k, k < N → (extractFrameTimes d N).getD k 0 = min ((k : ℚ) * (d / N)) d)
    ∧ (∀ k, k < N → (k : ℚ) * (d / N) ≤ d)
    ∧ extractFrameTimes 10 5 = [0, 2, 4, 6, 8] := by
  have hflat := extractFrameTimes_eq d N hN
  have hNQ : (0 : ℚ) < (N : ℚ) := by
    have : (1 : ℚ) ≤ (N : ℚ) := by exact_mod_cast hN
    linarith
  refine ⟨?_, ?_, ?_, by with_unfolding_all decide⟩
  · rw [hflat]
    simp [frameTimesFrom_length]
    omega
  · intro k hk
    rw [hflat]
    cases k with
    | zero =>
      show (0 : ℚ) = min ((0 : ℚ) * (d / N)) d
      rw [zero_mul, min_eq_left hd.le]
    | succ j =>
      show (frameTimesFrom d (d / N) 0 (N - 1)).getD j 0 = _
      rw [frameTimesFrom_getD d (d / N) (N - 1) 0 j (by omega)]
      congr 1
      push_cast
      ring
  · intro k hk
    have hkN : (k : ℚ) ≤ (N : ℚ) := by exact_mod_cast Nat.le_of_lt hk
    have hdiv : (0 : ℚ) ≤ d / N := div_nonneg hd.le hNQ.le
    have hNd : (N : ℚ) * (d / N) = d := by field_simp
    calc (k : ℚ) * (d / N) ≤ (N : ℚ) * (d / N) := mul_le_mul_of_nonneg_right hkN hdiv
      _ = d := hNd

/-- C4 witness: the 10-second, 5-frame instance. -/
theorem extractVideoFrames_spec_witness :
    ((0 : ℚ) < 10 ∧ 1 ≤ 5)
    ∧ ((extractFrameTimes 10 5).length = 5
      ∧ (∀ k : Nat, k < 5 → (extractFrameTimes 10 5).getD k 0 = min ((k : ℚ) * ((10 : ℚ) / 5)) 10)
      ∧ (∀ k : Nat, k < 5 → (k : ℚ) * ((10 : ℚ) / 5) ≤ 10)
      ∧ extractFrameTimes 10 5 = [0, 2, 4, 6, 8]) :=
  ⟨⟨by norm_num, by norm_num⟩, by
    have h := extractVideoFrames_spec 10 5 (by norm_num) (by norm_num)
    simpa using h⟩

/-- C8: on a source that fails to load, `extractVideoFrames` rejects with
the load error, never resolves (in particular not with a partial frame
list), and the temporary object URL is revoked on the failure path. -/
theorem extractVideoFrames_load_failure (numberOfFrames : Nat) :
    (extractVideoFramesRun VideoLoadResult.failure numberOfFrames).result
        = Except.error "Failed to load video file for frame extraction."
    ∧ (∀ frames : List ℚ,
        (extractVideoFramesRun VideoLoadResult.failure numberOfFrames).result
          ≠ Except.ok frames)
    ∧ (extractVideoFramesRun VideoLoadResult.failure numberOfFrames).urlRevoked = true :=
  ⟨rfl, fun _ h => Except.noConfusion h, rfl⟩

/-- C5: evaluation of the SRT export at the segment from the claim.
`Date.setSeconds` truncates a fractional seconds argument, so the
exported millisecond field is always 000: the block structure and the
HH:MM:SS fields are as claimed, but start 4.5 renders as 00:00:04,000 and
end 7.2 as 00:00:07,000, not 00:00:04,500 and 00:00:07,200. -/
theorem downloadAsSrt_millisecond_truncation :
    downloadAsSrt [⟨4.5, 7.2, "hello"⟩]
        = some "1\n00:00:04,000 --> 00:00:07,000\nhello\n"
    ∧ downloadAsSrt [⟨4.5, 7.2, "hello"⟩]
        ≠ some "1\n00:00:04,500 --> 00:00:07,200\nhello\n" := by
  with_unfolding_all decide

/-- C6: a collaborator response that is not an array, or whose length
differs from the original transcript's, is rejected with the user-facing
error; the call never resolves, in particular never with a truncated or
padded transcript. -/
theorem reviseScriptWithAI_rejects_shape_mismatch
    (transcript : List TranscriptSegment) (response : RevisionResponse)
    (h : ∀ l, response = RevisionResponse.array l → l.length ≠ transcript.length) :
    reviseScriptWithAI transcript response
        = Except.error "Failed to get a valid revision from the AI. Please try again."
    ∧ ∀ out : List TranscriptSegment,
        reviseScriptWithAI transcript response ≠ Except.ok out := by
  cases response with
  | notArray =>
    refine ⟨rfl, ?_⟩
    intro out hout
    exact Except.noConfusion hout
  | array l =>
    have hne : l.length ≠ transcript.length := h l rfl
    have hrun : reviseScriptWithAI transcript (RevisionResponse.array l)
        = Except.error "Failed to get a valid revision from the AI. Please try again." := by
      simp [reviseScriptWithAI, reviseScriptWithAIBody, hne]
    refine ⟨hrun, ?_⟩
    intro out hout
    rw [hrun] at hout
    exact Except.noConfusion hout

/-- C6 witness: a one-segment transcript against an empty-array response. -/
theorem reviseScriptWithAI_rejects_shape_mismatch_witness :
    (∀ l : List TranscriptSegment,
        RevisionResponse.array ([] : List TranscriptSegment) = RevisionResponse.array l
          → l.length ≠ ([⟨0, 1, "a"⟩] : List TranscriptSegment).length)
    ∧ (reviseScriptWithAI [⟨0, 1, "a"⟩] (RevisionResponse.array [])
          = Except.error "Failed to get a valid revision from the AI. Please try again."
      ∧ ∀ out : List TranscriptSegment,
          reviseScriptWithAI [⟨0, 1, "a"⟩] (RevisionResponse.array [])
            ≠ Except.ok out) :=
  ⟨fun l hl => by cases hl; decide,
    reviseScriptWithAI_rejects_shape_mismatch [⟨0, 1, "a"⟩] (RevisionResponse.array [])
      (fun l hl => by cases hl; decide)⟩

/-- C7 counterexample: the function checks only `Array.isArray` and the
length — a response with altered timestamps is returned verbatim, so
`reviseScriptWithAI` can resolve successfully with an element whose start
differs from the original's at the same index, contradicting the claim as
stated. -/
theorem reviseScriptWithAI_accepts_changed_timestamps :
    reviseScriptWithAI [⟨0, 1, "a"⟩] (RevisionResponse.array [⟨5, 6, "b"⟩])
        = Except.ok [⟨5, 6, "b"⟩]
    ∧ (([⟨5, 6, "b"⟩] : List TranscriptSegment).getD 0 default).start
        ≠ (([⟨0, 1, "a"⟩] : List TranscriptSegment).getD 0 default).start := by
  constructor
  · with_unfolding_all rfl
  · with_unfolding_all decide

/-- C7 amended: a successful resolution returns the collaborator's response
array verbatim, and it has the same length as the original transcript;
per-element start/end preservation is not separately enforced — it holds
exactly when the collaborator's response itself preserves start/end, as its
contract demands. -/
theorem reviseScriptWithAI_success_shape (transcript : List TranscriptSegment)
    (response : RevisionResponse) (out : List TranscriptSegment)
    (h : reviseScriptWithAI transcript response = Except.ok out) :
    out.length = transcript.length ∧ response = RevisionResponse.array out := by
  cases response with
  | notArray => exact absurd h (by simp [reviseScriptWithAI, reviseScriptWithAIBody])
  | array l =>
    by_cases hlen : l.length = transcript.length
    · have hrun : reviseScriptWithAI transcript (RevisionResponse.array l)
          = Except.ok l := by
        simp [reviseScriptWithAI, reviseScriptWithAIBody, hlen]
      rw [hrun] at h
      cases h
      exact ⟨hlen, rfl⟩
    · have hrun : reviseScriptWithAI transcript (RevisionResponse.array l)
          = Except.error "Failed to get a valid revision from the AI. Please try again." := by
        simp [reviseScriptWithAI, reviseScriptWithAIBody, hlen]
      rw [hrun] at h
      exact Except.noConfusion h

/-- C7 witness: a response that edits only the text resolves and is
returned verbatim with the original length. -/
theorem reviseScriptWithAI_success_shape_witness :
    reviseScriptWithAI [⟨0, 1, "a"⟩] (RevisionResponse.array [⟨0, 1, "b"⟩])
        = Except.ok [⟨0, 1, "b"⟩]
    ∧ (([⟨0, 1, "b"⟩] : List TranscriptSegment).length
          = ([⟨0, 1, "a"⟩] : List TranscriptSegment).length
      ∧ RevisionResponse.array ([⟨0, 1, "b"⟩] : List TranscriptSegment)
          = RevisionResponse.array [⟨0, 1, "b"⟩]) :=
  ⟨by with_unfolding_all rfl,
    reviseScriptWithAI_success_shape [⟨0, 1, "a"⟩] (RevisionResponse.array [⟨0, 1, "b"⟩])
      [⟨0, 1, "b"⟩] (by with_unfolding_all rfl)⟩

/-- C10: each per-segment edit handler replaces only the text of element
`index`: the length is unchanged, element `index` keeps its start and end
and receives the new text, every other element is untouched, and all three
handlers perform the same update. -/
theorem segment_edits_frame_preserving (transcript : List TranscriptSegment)
    (index : Nat) (newText : String) (hidx : index < transcript.length) :
    (handleOriginalChange transcript index newText).length = transcript.length
    ∧ ((handleOriginalChange transcript index newText).getD index default).start
        = (transcript.getD index default).start
    ∧ ((handleOriginalChange transcript index newText).getD index default).«end»
        = (transcript.getD index default).«end»
    ∧ ((handleOriginalChange transcript index newText).getD index default).text = newText
    ∧ (∀ j, j ≠ index →
        (handleOriginalChange transcript index newText).getD j default
          = transcript.getD j default)
    ∧ handleRevisedChange transcript index newText
        = handleOriginalChange transcript index newText
    ∧ handleReReviseSegmentUpdate transcript index newText
        = handleOriginalChange transcript index newText := by
  have hset : handleOriginalChange transcript index newText
      = transcript.set index
          ⟨(transcript.getD index default).start,
            (transcript.getD index default).«end», newText⟩ := rfl
  have hget : (handleOriginalChange transcript index newText).getD index default
      = ⟨(transcript.getD index default).start,
          (transcript.getD index default).«end», newText⟩ := by
    rw [hset, List.getD_eq_getElem?_getD, List.getElem?_set_self hidx]
    rfl
  refine ⟨?_, ?_, ?_, ?_, ?_, rfl, rfl⟩
  · rw [hset, List.length_set]
  · rw [hget]
  · rw [hget]
  · rw [hget]
  · intro j hj
    rw [hset, List.getD_eq_getElem?_getD,
      List.getElem?_set_ne (fun he => hj he.symm), ← List.getD_eq_getElem?_getD]

/-- C10 witness: editing segment 0 of a two-segment transcript. -/
theorem segment_edits_frame_preserving_witness :
    0 < ([⟨1, 2, "x"⟩, ⟨3, 4, "y"⟩] : List TranscriptSegment).length
    ∧ ((handleOriginalChange [⟨1, 2, "x"⟩, ⟨3, 4, "y"⟩] 0 "z").length
          = ([⟨1, 2, "x"⟩, ⟨3, 4, "y"⟩] : List TranscriptSegment).length
      ∧ ((handleOriginalChange [⟨1, 2, "x"⟩, ⟨3, 4, "y"⟩] 0 "z").getD 0 default).start
          = (([⟨1, 2, "x"⟩, ⟨3, 4, "y"⟩] : List TranscriptSegment).getD 0 default).start
      ∧ ((handleOriginalChange [⟨1, 2, "x"⟩, ⟨3, 4, "y"⟩] 0 "z").getD 0 default).«end»
          = (([⟨1, 2, "x"⟩, ⟨3, 4, "y"⟩] : List TranscriptSegment).getD 0 default).«end»
      ∧ ((handleOriginalChange [⟨1, 2, "x"⟩, ⟨3, 4, "y"⟩] 0 "z").getD 0 default).text = "z"
      ∧ (∀ j, j ≠ 0 →
          (handleOriginalChange [⟨1, 2, "x"⟩, ⟨3, 4, "y"⟩] 0 "z").getD j default
            = ([⟨1, 2, "x"⟩, ⟨3, 4, "y"⟩] : List TranscriptSegment).getD j default)
      ∧ handleRevisedChange [⟨1, 2, "x"⟩, ⟨3, 4, "y"⟩] 0 "z"
          = handleOriginalChange [⟨1, 2, "x"⟩, ⟨3, 4, "y"⟩] 0 "z"
      ∧ handleReReviseSegmentUpdate [⟨1, 2, "x"⟩, ⟨3, 4, "y"⟩] 0 "z"
          = handleOriginalChange [⟨1, 2, "x"⟩, ⟨3, 4, "y"⟩] 0 "z") :=
  ⟨by decide, segment_edits_frame_preserving [⟨1, 2, "x"⟩, ⟨3, 4, "y"⟩] 0 "z" (by decide)⟩

end ContentCraft
